import Mathlib

/-!
Verification of the nRF DFU protocol engine (`src/nrf-dfu/src/dfu.rs`) of the
watchful repository: a shallow embedding of the request/response codec, the
object store and the `DfuTarget::process` state machine, together with proofs
about the specified behaviour.

Machine integers are modelled as `Nat` with explicit reduction modulo `2^w`
at the arithmetic operations where the Rust types wrap or truncate.  Byte
buffers are `List Nat`.  The asynchronous flash collaborator (`NorFlash`) is
external to the engine; it is modelled as an oracle giving the outcome of
each erase/write call issued by the engine.
-/

deriving instance DecidableEq for Except

/-- Error kind reported by the underlying flash driver
(`embedded_storage::nor_flash::NorFlashErrorKind`), kept abstract as a tag. -/
inductive NorFlashErrorKind where
  | kind : Nat → NorFlashErrorKind
deriving DecidableEq, Repr

/-- `enum Error` of dfu.rs: out-of-bounds flash access or an underlying flash
error. -/
inductive Error where
  | OutOfBounds : Error
  | Flash : NorFlashErrorKind → Error
deriving DecidableEq, Repr

/-- Oracle for the external flash collaborator: the outcome (`none` = success,
`some e` = failure) of each `erase`/`write` call the engine may issue. -/
structure FlashModel where
  eraseRes : Nat → Nat → Option Error
  writeRes : Nat → List Nat → Option Error

/-- The flash oracle on which every erase and write succeeds. -/
def allOkFlash : FlashModel := ⟨fun _ _ => none, fun _ _ => none⟩

/-- A flash oracle whose erase calls all fail with a given error. -/
def eraseFailFlash (e : Error) : FlashModel := ⟨fun _ _ => some e, fun _ _ => none⟩

/-- A flash oracle whose write calls all fail with a given error. -/
def writeFailFlash (e : Error) : FlashModel := ⟨fun _ _ => none, fun _ _ => some e⟩

/-- Modelled from the spec: the repository declares `mod crc;` but the file
`src/crc.rs` is not included under `src/`.  Per §4.1 the running checksum is
the standard 32-bit CRC (reflected polynomial `0xEDB88320`, seed
`0xFFFFFFFF`), with `init`/`add`/`finish`/`reset`.  The state is the 32-bit
CRC register. -/
structure Crc32 where
  state : Nat
deriving DecidableEq, Repr

/-- One shift-and-conditionally-xor round of the reflected CRC-32. -/
def crc32round (s : Nat) : Nat :=
  if s % 2 = 1 then (s / 2) ^^^ 0xEDB88320 else s / 2

/-- Fold one byte into the CRC register: xor it in, then eight rounds. -/
def crc32byte (s b : Nat) : Nat := crc32round^[8] (s ^^^ (b % 256))

/-- Modelled from the spec: `Crc32::init()` produces the seed state. -/
def Crc32.init : Crc32 := ⟨0xFFFFFFFF⟩

/-- Modelled from the spec: `Crc32::add(bytes)` folds a byte sequence into the
state, order-sensitive and byte-exact. -/
def Crc32.add (c : Crc32) (bs : List Nat) : Crc32 := ⟨bs.foldl crc32byte c.state⟩

/-- Modelled from the spec: `Crc32::finish()` returns the finalized 32-bit
value without mutating state. -/
def Crc32.finish (c : Crc32) : Nat := c.state ^^^ 0xFFFFFFFF

/-- Modelled from the spec: `Crc32::reset()` restores the seed state. -/
def Crc32.reset (_c : Crc32) : Crc32 := Crc32.init

/-- `enum ObjectType` of dfu.rs. -/
inductive ObjectType where
  | Invalid : ObjectType
  | Command : ObjectType
  | Data : ObjectType
deriving DecidableEq, Repr

/-- `enum FirmwareType` of dfu.rs. -/
inductive FirmwareType where
  | Softdevice : FirmwareType
  | Application : FirmwareType
  | Bootloader : FirmwareType
  | Unknown : FirmwareType
deriving DecidableEq, Repr

/-- `impl TryFrom<u8> for ObjectType`. -/
def ObjectType.tryFrom (t : Nat) : Except Unit ObjectType :=
  match t with
  | 0 => .ok .Invalid
  | 1 => .ok .Command
  | 2 => .ok .Data
  | _ => .error ()

/-- `impl Into<u8> for ObjectType`. -/
def ObjectType.toByte : ObjectType → Nat
  | .Invalid => 0x00
  | .Command => 0x01
  | .Data => 0x02

/-- `impl Into<u8> for FirmwareType`. -/
def FirmwareType.toByte : FirmwareType → Nat
  | .Softdevice => 0x00
  | .Application => 0x01
  | .Bootloader => 0x02
  | .Unknown => 0xFF

/-- `struct Object` of dfu.rs: one transfer object (u32 fields as `Nat`). -/
structure Object where
  obj_type : ObjectType
  offset : Nat
  crc : Crc32
  size : Nat
deriving DecidableEq, Repr

/-- `struct FirmwareInfo` of dfu.rs. -/
structure FirmwareInfo where
  ftype : FirmwareType
  version : Nat
  addr : Nat
  len : Nat
deriving DecidableEq, Repr

/-- `struct HardwareInfo` of dfu.rs. -/
structure HardwareInfo where
  part : Nat
  variant : Nat
  rom_size : Nat
  ram_size : Nat
  rom_page_size : Nat
deriving DecidableEq, Repr

/-- `struct DfuTarget` of dfu.rs: the engine state.  The two-slot object
array is a pair, and `current` is the selecting index (always 0 or 1 in the
source; `Fin 2` makes that structural). -/
structure DfuTarget where
  crc_receipt_interval : Nat
  receipt_count : Nat
  objects : Object × Object
  current : Fin 2
  fw_info : FirmwareInfo
  hw_info : HardwareInfo
deriving DecidableEq, Repr

/-- `self.objects[i]`. -/
def getObj (o : Object × Object) (i : Fin 2) : Object :=
  if i = 0 then o.1 else o.2

/-- `self.objects[i] = v`. -/
def setObj (o : Object × Object) (i : Fin 2) (v : Object) : Object × Object :=
  if i = 0 then (v, o.2) else (o.1, v)

/-- `OBJ_TYPE_COMMAND_IDX`. -/
def OBJ_TYPE_COMMAND_IDX : Fin 2 := 0

/-- `OBJ_TYPE_DATA_IDX`. -/
def OBJ_TYPE_DATA_IDX : Fin 2 := 1

/-- `DFU_PROTOCOL_VERSION`. -/
def DFU_PROTOCOL_VERSION : Nat := 0x01

/-- `DFU_MTU`. -/
def DFU_MTU : Nat := 32

/-- `enum DfuRequest` of dfu.rs; the write payload is a byte list. -/
inductive DfuRequest where
  | ProtocolVersion : DfuRequest
  | Create : ObjectType → Nat → DfuRequest
  | SetReceiptNotification : Nat → DfuRequest
  | Crc : DfuRequest
  | Execute : DfuRequest
  | Select : ObjectType → DfuRequest
  | MtuGet : DfuRequest
  | Write : List Nat → DfuRequest
  | Ping : Nat → DfuRequest
  | HwVersion : DfuRequest
  | FwVersion : Nat → DfuRequest
  | Abort : DfuRequest
deriving DecidableEq, Repr

/-- `enum DfuResult` of dfu.rs. -/
inductive DfuResult where
  | Invalid : DfuResult
  | Success : DfuResult
  | OpNotSupported : DfuResult
  | InvalidParameter : DfuResult
  | InsufficientResources : DfuResult
  | InvalidObject : DfuResult
  | UnsupportedType : DfuResult
  | OpNotPermitted : DfuResult
  | OpFailed : DfuResult
  | ExtError : Nat → DfuResult
deriving DecidableEq, Repr

/-- `enum DfuResponseBody` of dfu.rs. -/
inductive DfuResponseBody where
  | ProtocolVersion : Nat → DfuResponseBody
  | Crc : (offset : Nat) → (crc : Nat) → DfuResponseBody
  | Select : (offset : Nat) → (crc : Nat) → (max_size : Nat) → DfuResponseBody
  | Mtu : Nat → DfuResponseBody
  | Write : (crc : Nat) → DfuResponseBody
  | Ping : Nat → DfuResponseBody
  | HwVersion : (part : Nat) → (variant : Nat) → (rom_size : Nat) →
      (ram_size : Nat) → (rom_page_size : Nat) → DfuResponseBody
  | FwVersion : FirmwareType → (version : Nat) → (addr : Nat) → (len : Nat) →
      DfuResponseBody
deriving DecidableEq, Repr

/-- `struct DfuResponse` of dfu.rs. -/
structure DfuResponse where
  request : DfuRequest
  result : DfuResult
  body : Option DfuResponseBody
deriving DecidableEq, Repr

/-- `DfuTarget::new`. -/
def DfuTarget.new (size : Nat) (fw : FirmwareInfo) (hw : HardwareInfo) : DfuTarget :=
  { crc_receipt_interval := 0
    receipt_count := 0
    objects :=
      (⟨ObjectType.Command, 0, Crc32.init, 512⟩,
       ⟨ObjectType.Data, 0, Crc32.init, size⟩)
    current := 0
    fw_info := fw
    hw_info := hw }

/-- The `let body = match request { ... }` block of `DfuTarget::process`,
returning the body (or the flash error propagated by `?`) together with the
mutated state; mutations made before a failing flash call persist, exactly as
an early `return Err` leaves `&mut self` in Rust. -/
def DfuTarget.processBody (s : DfuTarget) (req : DfuRequest) (flash : FlashModel) :
    Except Error (Option DfuResponseBody) × DfuTarget :=
  match req with
  | .ProtocolVersion =>
      (.ok (some (.ProtocolVersion DFU_PROTOCOL_VERSION)), s)
  | .Create obj_type obj_size =>
      let idx : Option (Fin 2) :=
        match obj_type with
        | .Command => some OBJ_TYPE_COMMAND_IDX
        | .Data => some OBJ_TYPE_DATA_IDX
        | _ => none
      match idx with
      | some idx =>
          let s1 : DfuTarget :=
            { s with
              objects := setObj s.objects idx
                ⟨obj_type, 0, Crc32.init, obj_size % 2 ^ 32⟩
              current := idx }
          let eraseStep : Except Error Unit :=
            match obj_type with
            | .Data =>
                match flash.eraseRes 0 (obj_size % 2 ^ 32) with
                | some e => .error e
                | none => .ok ()
            | _ => .ok ()
          match eraseStep with
          | .error e => (.error e, s1)
          | .ok _ => (.ok none, { s1 with receipt_count := 0 })
      | none => (.ok none, { s with receipt_count := 0 })
  | .SetReceiptNotification target =>
      (.ok none, { s with crc_receipt_interval := target % 2 ^ 16 })
  | .Crc =>
      (.ok (some (.Crc (getObj s.objects s.current).offset
        ((getObj s.objects s.current).crc.finish))), s)
  | .Execute => (.ok none, s)
  | .Select obj_type =>
      let idx : Option (Fin 2) :=
        match obj_type with
        | .Command => some OBJ_TYPE_COMMAND_IDX
        | .Data => some OBJ_TYPE_DATA_IDX
        | _ => none
      match idx with
      | some idx =>
          (.ok (some (.Select (getObj s.objects idx).offset
            ((getObj s.objects idx).crc.finish)
            (getObj s.objects idx).size)), s)
      | none => (.ok none, s)
  | .MtuGet => (.ok (some (.Mtu DFU_MTU)), s)
  | .Write data =>
      let obj := getObj s.objects s.current
      let writeStep : Except Error Unit :=
        match obj.obj_type with
        | .Data =>
            match flash.writeRes obj.offset data with
            | some e => .error e
            | none => .ok ()
        | _ => .ok ()
      match writeStep with
      | .error e => (.error e, s)
      | .ok _ =>
          let obj1 : Object :=
            { obj with
              crc := obj.crc.add data
              offset := (obj.offset + data.length % 2 ^ 32) % 2 ^ 32 }
          let s1 : DfuTarget := { s with objects := setObj s.objects s.current obj1 }
          if 0 < s1.crc_receipt_interval then
            let rc := (s1.receipt_count + 1) % 2 ^ 16
            if rc = s1.crc_receipt_interval then
              (.ok (some (.Crc obj1.offset obj1.crc.finish)),
               { s1 with receipt_count := 0 })
            else
              (.ok none, { s1 with receipt_count := rc })
          else
            (.ok (some (.Crc obj1.offset obj1.crc.finish)), s1)
  | .Ping id => (.ok (some (.Ping id)), s)
  | .HwVersion =>
      (.ok (some (.HwVersion s.hw_info.part s.hw_info.variant s.hw_info.rom_size
        s.hw_info.ram_size s.hw_info.rom_page_size)), s)
  | .FwVersion _image_id =>
      (.ok (some (.FwVersion s.fw_info.ftype s.fw_info.version s.fw_info.addr
        s.fw_info.len)), s)
  | .Abort =>
      (.ok none,
       { s with
         objects :=
           (⟨s.objects.1.obj_type, 0, s.objects.1.crc.reset, s.objects.1.size⟩,
            ⟨s.objects.2.obj_type, 0, s.objects.2.crc.reset, s.objects.2.size⟩)
         receipt_count := 0 })

/-- `DfuTarget::process`: run the handler, then wrap the body into
`Ok(DfuResponse { request, result: Success, body })`; a flash error is
returned as `Err` with the partially mutated state. -/
def DfuTarget.process (s : DfuTarget) (req : DfuRequest) (flash : FlashModel) :
    Except Error DfuResponse × DfuTarget :=
  match s.processBody req flash with
  | (.ok body, s1) => (.ok ⟨req, .Success, body⟩, s1)
  | (.error e, s1) => (.error e, s1)

/-- `ReadBuf::decode_u8`: consume one byte. -/
def decodeU8 (bs : List Nat) : Except Unit (Nat × List Nat) :=
  match bs with
  | [] => .error ()
  | b :: rest => .ok (b, rest)

/-- `ReadBuf::decode_u16`: consume two bytes, little-endian. -/
def decodeU16 (bs : List Nat) : Except Unit (Nat × List Nat) :=
  match bs with
  | b0 :: b1 :: rest => .ok (b0 + b1 * 256, rest)
  | _ => .error ()

/-- `ReadBuf::decode_u32`: consume four bytes, little-endian. -/
def decodeU32 (bs : List Nat) : Except Unit (Nat × List Nat) :=
  match bs with
  | b0 :: b1 :: b2 :: b3 :: rest =>
      .ok (b0 + b1 * 256 + b2 * 65536 + b3 * 16777216, rest)
  | _ => .error ()

/-- `DfuRequest::decode`: read the operation-code byte, then the
operation-specific fields; the unconsumed remainder (`ReadBuf::release`) is
returned alongside the request.  The source's `match op` over byte literals
is an equality dispatch. -/
def DfuRequest.decode (bs : List Nat) : Except Unit (DfuRequest × List Nat) :=
  match decodeU8 bs with
  | .error e => .error e
  | .ok (op, r0) =>
    if op = 0x00 then .ok (.ProtocolVersion, r0)
    else if op = 0x01 then
      match decodeU8 r0 with
      | .error e => .error e
      | .ok (t, r1) =>
        match ObjectType.tryFrom t with
        | .error e => .error e
        | .ok obj_type =>
          match decodeU32 r1 with
          | .error e => .error e
          | .ok (obj_size, r2) => .ok (.Create obj_type obj_size, r2)
    else if op = 0x02 then
      match decodeU16 r0 with
      | .error e => .error e
      | .ok (target, r1) => .ok (.SetReceiptNotification target, r1)
    else if op = 0x03 then .ok (.Crc, r0)
    else if op = 0x04 then .ok (.Execute, r0)
    else if op = 0x06 then
      match decodeU8 r0 with
      | .error e => .error e
      | .ok (t, r1) =>
        match ObjectType.tryFrom t with
        | .error e => .error e
        | .ok obj_type => .ok (.Select obj_type, r1)
    else if op = 0x07 then .ok (.MtuGet, r0)
    else if op = 0x08 then .ok (.Write r0, [])
    else if op = 0x09 then
      match decodeU8 r0 with
      | .error e => .error e
      | .ok (id, r1) => .ok (.Ping id, r1)
    else if op = 0x0A then .ok (.HwVersion, r0)
    else if op = 0x0B then
      match decodeU8 r0 with
      | .error e => .error e
      | .ok (image_id, r1) => .ok (.FwVersion image_id, r1)
    else if op = 0x0C then .ok (.Abort, r0)
    else .error ()

/-- `DfuRequest::code`. -/
def DfuRequest.code : DfuRequest → Nat
  | .ProtocolVersion => 0x00
  | .Create _ _ => 0x01
  | .SetReceiptNotification _ => 0x02
  | .Crc => 0x03
  | .Execute => 0x04
  | .Select _ => 0x06
  | .MtuGet => 0x07
  | .Write _ => 0x08
  | .Ping _ => 0x09
  | .HwVersion => 0x0A
  | .FwVersion _ => 0x0B
  | .Abort => 0x0C

/-- `WriteBuf::encode_u8`: bounds check, then store the byte at `pos`. -/
def wbEncodeU8 (data : List Nat) (pos v : Nat) : Except Unit (List Nat × Nat) :=
  if 1 ≤ data.length - pos then .ok (data.set pos (v % 256), pos + 1)
  else .error ()

/-- `WriteBuf::encode_u16`: bounds check, then store two little-endian bytes. -/
def wbEncodeU16 (data : List Nat) (pos v : Nat) : Except Unit (List Nat × Nat) :=
  if 2 ≤ data.length - pos then
    .ok ((data.set pos (v % 256)).set (pos + 1) (v / 256 % 256), pos + 2)
  else .error ()

/-- `WriteBuf::encode_u32`: bounds check, then store four little-endian bytes. -/
def wbEncodeU32 (data : List Nat) (pos v : Nat) : Except Unit (List Nat × Nat) :=
  if 4 ≤ data.length - pos then
    .ok ((((data.set pos (v % 256)).set (pos + 1) (v / 256 % 256)).set
      (pos + 2) (v / 65536 % 256)).set (pos + 3) (v / 16777216 % 256), pos + 4)
  else .error ()

/-- `WriteBuf::advance`. -/
def wbAdvance (data : List Nat) (pos amount : Nat) : Except Unit Nat :=
  if amount ≤ data.length - pos then .ok (pos + amount) else .error ()

/-- `DfuResult::encode` into a fresh `WriteBuf` over the given buffer; returns
the mutated buffer and the number of bytes written (`buf.pos`). -/
def DfuResult.encode (r : DfuResult) (buf : List Nat) : Except Unit (List Nat × Nat) :=
  let code : Nat :=
    match r with
    | .Invalid => 0x00
    | .Success => 0x01
    | .OpNotSupported => 0x02
    | .InvalidParameter => 0x03
    | .InsufficientResources => 0x04
    | .InvalidObject => 0x05
    | .UnsupportedType => 0x07
    | .OpNotPermitted => 0x08
    | .OpFailed => 0x0A
    | .ExtError _ => 0x0B
  match wbEncodeU8 buf 0 code with
  | .error e => .error e
  | .ok (b1, p1) =>
    match r with
    | .ExtError c => wbEncodeU8 b1 p1 c
    | _ => .ok (b1, p1)

/-- `DfuResponseBody::encode` into a fresh `WriteBuf` over the given buffer;
returns the mutated buffer and the number of bytes written. -/
def DfuResponseBody.encode (b : DfuResponseBody) (buf : List Nat) :
    Except Unit (List Nat × Nat) :=
  match b with
  | .ProtocolVersion version => wbEncodeU8 buf 0 version
  | .Crc offset crc =>
      match wbEncodeU32 buf 0 offset with
      | .error e => .error e
      | .ok (b1, p1) => wbEncodeU32 b1 p1 crc
  | .Select offset crc max_size =>
      match wbEncodeU32 buf 0 max_size with
      | .error e => .error e
      | .ok (b1, p1) =>
        match wbEncodeU32 b1 p1 offset with
        | .error e => .error e
        | .ok (b2, p2) => wbEncodeU32 b2 p2 crc
  | .Mtu mtu => wbEncodeU16 buf 0 mtu
  | .Write crc => wbEncodeU32 buf 0 crc
  | .Ping id => wbEncodeU8 buf 0 id
  | .HwVersion part variant rom_size ram_size rom_page_size =>
      match wbEncodeU32 buf 0 part with
      | .error e => .error e
      | .ok (b1, p1) =>
        match wbEncodeU32 b1 p1 variant with
        | .error e => .error e
        | .ok (b2, p2) =>
          match wbEncodeU32 b2 p2 rom_size with
          | .error e => .error e
          | .ok (b3, p3) =>
            match wbEncodeU32 b3 p3 ram_size with
            | .error e => .error e
            | .ok (b4, p4) => wbEncodeU32 b4 p4 rom_page_size
  | .FwVersion ftype version addr len =>
      match wbEncodeU8 buf 0 ftype.toByte with
      | .error e => .error e
      | .ok (b1, p1) =>
        match wbEncodeU32 b1 p1 version with
        | .error e => .error e
        | .ok (b2, p2) =>
          match wbEncodeU32 b2 p2 addr with
          | .error e => .error e
          | .ok (b3, p3) => wbEncodeU32 b3 p3 len

/-- `DFU_RESPONSE_OP_CODE`. -/
def DFU_RESPONSE_OP_CODE : Nat := 0x60

/-- `DfuResponse::encode`: response opcode, request opcode, then the result
encoded into `buf.slice()` followed by `advance`, then the optional body the
same way; returns the mutated buffer and `buf.release()` (bytes written). -/
def DfuResponse.encode (resp : DfuResponse) (buf : List Nat) :
    Except Unit (List Nat × Nat) :=
  match wbEncodeU8 buf 0 DFU_RESPONSE_OP_CODE with
  | .error e => .error e
  | .ok (b1, p1) =>
    match wbEncodeU8 b1 p1 resp.request.code with
    | .error e => .error e
    | .ok (b2, p2) =>
      match DfuResult.encode resp.result (b2.drop p2) with
      | .error e => .error e
      | .ok (r1, len1) =>
        let b3 := b2.take p2 ++ r1
        match wbAdvance b3 p2 len1 with
        | .error e => .error e
        | .ok p3 =>
          match resp.body with
          | some body =>
              match DfuResponseBody.encode body (b3.drop p3) with
              | .error e => .error e
              | .ok (r2, len2) =>
                let b4 := b3.take p3 ++ r2
                match wbAdvance b4 p3 len2 with
                | .error e => .error e
                | .ok p4 => .ok (b4, p4)
          | none => .ok (b3, p3)

/-- Little-endian byte list of a u32 value (specification side, §4.2). -/
def u32le (v : Nat) : List Nat :=
  [v % 256, v / 256 % 256, v / 65536 % 256, v / 16777216 % 256]

/-- Little-endian byte list of a u16 value (specification side, §4.2). -/
def u16le (v : Nat) : List Nat := [v % 256, v / 256 % 256]

/-- Specification-side wire layout of a result code (§4.2): one code byte,
plus one application sub-code byte for `ExtError`. -/
def specResultBytes : DfuResult → List Nat
  | .Invalid => [0x00]
  | .Success => [0x01]
  | .OpNotSupported => [0x02]
  | .InvalidParameter => [0x03]
  | .InsufficientResources => [0x04]
  | .InvalidObject => [0x05]
  | .UnsupportedType => [0x07]
  | .OpNotPermitted => [0x08]
  | .OpFailed => [0x0A]
  | .ExtError c => [0x0B, c % 256]

/-- Specification-side wire layout of each response body (§4.2 table); the
select body is max-size, offset, checksum, while the crc body is offset,
checksum. -/
def specBodyBytes : DfuResponseBody → List Nat
  | .ProtocolVersion version => [version % 256]
  | .Crc offset crc => u32le offset ++ u32le crc
  | .Select offset crc max_size => u32le max_size ++ u32le offset ++ u32le crc
  | .Mtu mtu => u16le mtu
  | .Write crc => u32le crc
  | .Ping id => [id % 256]
  | .HwVersion part variant rom_size ram_size rom_page_size =>
      u32le part ++ u32le variant ++ u32le rom_size ++ u32le ram_size ++
        u32le rom_page_size
  | .FwVersion ftype version addr len =>
      [ftype.toByte % 256] ++ u32le version ++ u32le addr ++ u32le len

/-- Specification-side wire layout of a whole response (§4.2): fixed response
opcode, originating request opcode, result bytes, then the body bytes when a
body is present. -/
def specRespBytes (resp : DfuResponse) : List Nat :=
  DFU_RESPONSE_OP_CODE % 256 :: resp.request.code % 256 ::
    (specResultBytes resp.result ++
      match resp.body with
      | some b => specBodyBytes b
      | none => [])

/-- Writing one byte at position `done.length` of `done ++ rest` replaces the
head of `rest`. -/
theorem set_pre (done rest : List Nat) (pos v : Nat) (hp : pos = done.length)
    (h : 1 ≤ rest.length) :
    (done ++ rest).set pos v = (done ++ [v]) ++ rest.drop 1 := by
  subst hp
  rw [List.set_append_right _ _ (Nat.le_refl _), Nat.sub_self]
  cases rest with
  | nil => simp at h
  | cons b t => simp

/-- `encode_u8` at the write position appends one byte. -/
theorem wbEncodeU8_pre (done rest : List Nat) (pos v : Nat) (hp : pos = done.length)
    (h : 1 ≤ rest.length) :
    wbEncodeU8 (done ++ rest) pos v =
      .ok ((done ++ [v % 256]) ++ rest.drop 1, pos + 1) := by
  unfold wbEncodeU8
  rw [if_pos (by simp [hp]; omega), set_pre done rest pos (v % 256) hp h]

/-- `encode_u16` at the write position appends the two little-endian bytes. -/
theorem wbEncodeU16_pre (done rest : List Nat) (pos v : Nat) (hp : pos = done.length)
    (h : 2 ≤ rest.length) :
    wbEncodeU16 (done ++ rest) pos v =
      .ok ((done ++ u16le v) ++ rest.drop 2, pos + 2) := by
  unfold wbEncodeU16
  rw [if_pos (by simp [hp]; omega), set_pre done rest pos (v % 256) hp (by omega),
    set_pre (done ++ [v % 256]) (rest.drop 1) (pos + 1) (v / 256 % 256)
      (by simp [hp]) (by simp; omega)]
  simp [u16le, List.drop_drop]

/-- `encode_u32` at the write position appends the four little-endian bytes. -/
theorem wbEncodeU32_pre (done rest : List Nat) (pos v : Nat) (hp : pos = done.length)
    (h : 4 ≤ rest.length) :
    wbEncodeU32 (done ++ rest) pos v =
      .ok ((done ++ u32le v) ++ rest.drop 4, pos + 4) := by
  unfold wbEncodeU32
  rw [if_pos (by simp [hp]; omega), set_pre done rest pos (v % 256) hp (by omega),
    set_pre (done ++ [v % 256]) (rest.drop 1) (pos + 1) (v / 256 % 256)
      (by simp [hp]) (by simp; omega),
    set_pre ((done ++ [v % 256]) ++ [v / 256 % 256]) ((rest.drop 1).drop 1)
      (pos + 2) (v / 65536 % 256) (by simp [hp]) (by simp; omega),
    set_pre (((done ++ [v % 256]) ++ [v / 256 % 256]) ++ [v / 65536 % 256])
      (((rest.drop 1).drop 1).drop 1) (pos + 3) (v / 16777216 % 256)
      (by simp [hp]) (by simp; omega)]
  simp [u32le, List.drop_drop]

/-- `encode_u8` on a fresh buffer. -/
theorem wbEncodeU8_start (buf : List Nat) (v : Nat) (h : 1 ≤ buf.length) :
    wbEncodeU8 buf 0 v = .ok ([v % 256] ++ buf.drop 1, 1) := by
  have e := wbEncodeU8_pre [] buf 0 v rfl h
  rwa [List.nil_append, List.nil_append, Nat.zero_add] at e

/-- `encode_u16` on a fresh buffer. -/
theorem wbEncodeU16_start (buf : List Nat) (v : Nat) (h : 2 ≤ buf.length) :
    wbEncodeU16 buf 0 v = .ok (u16le v ++ buf.drop 2, 2) := by
  have e := wbEncodeU16_pre [] buf 0 v rfl h
  rwa [List.nil_append, List.nil_append, Nat.zero_add] at e

/-- `encode_u32` on a fresh buffer. -/
theorem wbEncodeU32_start (buf : List Nat) (v : Nat) (h : 4 ≤ buf.length) :
    wbEncodeU32 buf 0 v = .ok (u32le v ++ buf.drop 4, 4) := by
  have e := wbEncodeU32_pre [] buf 0 v rfl h
  rwa [List.nil_append, List.nil_append, Nat.zero_add] at e

/-- `WriteBuf::advance` succeeds when there is room. -/
theorem wbAdvance_ok (data : List Nat) (pos amount : Nat)
    (h : amount ≤ data.length - pos) : wbAdvance data pos amount = .ok (pos + amount) := by
  unfold wbAdvance
  rw [if_pos h]

/-- `DfuResult::encode` writes exactly the result-code bytes of §4.2 when the
buffer is large enough. -/
theorem resultEncode_bytes (r : DfuResult) (buf : List Nat)
    (h : (specResultBytes r).length ≤ buf.length) :
    DfuResult.encode r buf =
      .ok (specResultBytes r ++ buf.drop (specResultBytes r).length,
        (specResultBytes r).length) := by
  cases r <;> simp only [specResultBytes, List.length_cons, List.length_nil] at h ⊢ <;>
    simp only [DfuResult.encode]
  case Invalid => simp [wbEncodeU8_start buf 0 (by omega)]
  case Success => simp [wbEncodeU8_start buf 1 (by omega)]
  case OpNotSupported => simp [wbEncodeU8_start buf 2 (by omega)]
  case InvalidParameter => simp [wbEncodeU8_start buf 3 (by omega)]
  case InsufficientResources => simp [wbEncodeU8_start buf 4 (by omega)]
  case InvalidObject => simp [wbEncodeU8_start buf 5 (by omega)]
  case UnsupportedType => simp [wbEncodeU8_start buf 7 (by omega)]
  case OpNotPermitted => simp [wbEncodeU8_start buf 8 (by omega)]
  case OpFailed => simp [wbEncodeU8_start buf 10 (by omega)]
  case ExtError c =>
    simp only [wbEncodeU8_start buf 11 (by omega)]
    simp only [Nat.reduceMod]
    simp only [wbEncodeU8_pre [11] (buf.drop 1) 1 c rfl
      (by simp only [List.length_drop]; omega)]
    simp [List.drop_drop]

/-- `DfuResponseBody::encode` writes exactly the body bytes of the §4.2 table
when the buffer is large enough. -/
theorem bodyEncode_bytes (b : DfuResponseBody) (buf : List Nat)
    (h : (specBodyBytes b).length ≤ buf.length) :
    DfuResponseBody.encode b buf =
      .ok (specBodyBytes b ++ buf.drop (specBodyBytes b).length,
        (specBodyBytes b).length) := by
  cases b <;>
    simp only [specBodyBytes, u32le, u16le, List.length_append, List.length_cons,
      List.length_nil] at h <;>
    simp only [DfuResponseBody.encode]
  case ProtocolVersion v =>
    simp [wbEncodeU8_start buf v (by omega), specBodyBytes]
  case Crc o c =>
    simp only [wbEncodeU32_start buf o (by omega)]
    simp only [wbEncodeU32_pre (u32le o) (buf.drop 4) 4 c (by simp [u32le])
      (by simp only [List.length_drop]; omega)]
    simp [specBodyBytes, u32le, List.drop_drop]
  case Select o c m =>
    simp only [wbEncodeU32_start buf m (by omega)]
    simp only [wbEncodeU32_pre (u32le m) (buf.drop 4) 4 o (by simp [u32le])
      (by simp only [List.length_drop]; omega)]
    simp only [wbEncodeU32_pre (u32le m ++ u32le o) ((buf.drop 4).drop 4) 8 c
      (by simp [u32le]) (by simp only [List.length_drop]; omega)]
    simp [specBodyBytes, u32le, List.drop_drop]
  case Mtu v =>
    simp [wbEncodeU16_start buf v (by omega), specBodyBytes, u16le]
  case Write c =>
    simp [wbEncodeU32_start buf c (by omega), specBodyBytes, u32le]
  case Ping i =>
    simp [wbEncodeU8_start buf i (by omega), specBodyBytes]
  case HwVersion p v rs ras rps =>
    simp only [wbEncodeU32_start buf p (by omega)]
    simp only [wbEncodeU32_pre (u32le p) (buf.drop 4) 4 v (by simp [u32le])
      (by simp only [List.length_drop]; omega)]
    simp only [wbEncodeU32_pre (u32le p ++ u32le v) ((buf.drop 4).drop 4) 8 rs
      (by simp [u32le]) (by simp only [List.length_drop]; omega)]
    simp only [wbEncodeU32_pre ((u32le p ++ u32le v) ++ u32le rs)
      (((buf.drop 4).drop 4).drop 4) 12 ras (by simp [u32le])
      (by simp only [List.length_drop]; omega)]
    simp only [wbEncodeU32_pre (((u32le p ++ u32le v) ++ u32le rs) ++ u32le ras)
      ((((buf.drop 4).drop 4).drop 4).drop 4) 16 rps (by simp [u32le])
      (by simp only [List.length_drop]; omega)]
    simp [specBodyBytes, u32le, List.drop_drop]
  case FwVersion ft v a l =>
    simp only [wbEncodeU8_start buf ft.toByte (by omega)]
    simp only [wbEncodeU32_pre [ft.toByte % 256] (buf.drop 1) 1 v (by simp)
      (by simp only [List.length_drop]; omega)]
    simp only [wbEncodeU32_pre ([ft.toByte % 256] ++ u32le v) ((buf.drop 1).drop 4)
      5 a (by simp [u32le]) (by simp only [List.length_drop]; omega)]
    simp only [wbEncodeU32_pre (([ft.toByte % 256] ++ u32le v) ++ u32le a)
      (((buf.drop 1).drop 4).drop 4) 9 l (by simp [u32le])
      (by simp only [List.length_drop]; omega)]
    simp [specBodyBytes, u32le, List.drop_drop]

/-- `DfuResponse::encode` writes exactly the §4.2 wire layout — response
opcode, request opcode, result bytes, body bytes — when the buffer is large
enough, and reports the number of bytes written. -/
theorem respEncode_bytes (resp : DfuResponse) (buf : List Nat)
    (h : (specRespBytes resp).length ≤ buf.length) :
    DfuResponse.encode resp buf =
      .ok (specRespBytes resp ++ buf.drop (specRespBytes resp).length,
        (specRespBytes resp).length) := by
  obtain ⟨req, result, body⟩ := resp
  cases body with
  | none =>
      simp only [specRespBytes, DFU_RESPONSE_OP_CODE, List.length_cons,
        List.length_append, List.length_nil] at h
      simp only [DfuResponse.encode, DFU_RESPONSE_OP_CODE]
      simp only [wbEncodeU8_start buf 96 (by omega)]
      simp only [Nat.reduceMod]
      simp only [wbEncodeU8_pre [96] (buf.drop 1) 1 req.code rfl
        (by simp only [List.length_drop]; omega)]
      have hd2 : (([96] ++ [req.code % 256]) ++ (buf.drop 1).drop 1).drop 2 =
          (buf.drop 1).drop 1 := List.drop_left' (by simp)
      have ht2 : (([96] ++ [req.code % 256]) ++ (buf.drop 1).drop 1).take 2 =
          [96] ++ [req.code % 256] := List.take_left' (by simp)
      simp only [hd2, ht2]
      simp only [resultEncode_bytes result ((buf.drop 1).drop 1)
        (by simp only [List.length_drop]; omega)]
      rw [wbAdvance_ok]
      case h => simp only [List.length_append, List.length_cons, List.length_nil,
        List.length_drop]; omega
      simp [specRespBytes, DFU_RESPONSE_OP_CODE, List.drop_drop,
        Nat.add_assoc, Nat.add_comm, Nat.add_left_comm]
  | some b =>
      simp only [specRespBytes, DFU_RESPONSE_OP_CODE, List.length_cons,
        List.length_append, List.length_nil] at h
      simp only [DfuResponse.encode, DFU_RESPONSE_OP_CODE]
      simp only [wbEncodeU8_start buf 96 (by omega)]
      simp only [Nat.reduceMod]
      simp only [wbEncodeU8_pre [96] (buf.drop 1) 1 req.code rfl
        (by simp only [List.length_drop]; omega)]
      have hd2 : (([96] ++ [req.code % 256]) ++ (buf.drop 1).drop 1).drop 2 =
          (buf.drop 1).drop 1 := List.drop_left' (by simp)
      have ht2 : (([96] ++ [req.code % 256]) ++ (buf.drop 1).drop 1).take 2 =
          [96] ++ [req.code % 256] := List.take_left' (by simp)
      simp only [hd2, ht2]
      simp only [resultEncode_bytes result ((buf.drop 1).drop 1)
        (by simp only [List.length_drop]; omega)]
      rw [wbAdvance_ok]
      case h => simp only [List.length_append, List.length_cons, List.length_nil,
        List.length_drop]; omega
      rw [← List.append_assoc]
      have hd3 : ((([96] ++ [req.code % 256]) ++ specResultBytes result) ++
          (((buf.drop 1).drop 1).drop (specResultBytes result).length)).drop
            (2 + (specResultBytes result).length) =
          ((buf.drop 1).drop 1).drop (specResultBytes result).length :=
        List.drop_left' (by simp; omega)
      have ht3 : ((([96] ++ [req.code % 256]) ++ specResultBytes result) ++
          (((buf.drop 1).drop 1).drop (specResultBytes result).length)).take
            (2 + (specResultBytes result).length) =
          (([96] ++ [req.code % 256]) ++ specResultBytes result) :=
        List.take_left' (by simp; omega)
      simp only [hd3, ht3]
      simp only [bodyEncode_bytes b
        (((buf.drop 1).drop 1).drop (specResultBytes result).length)
        (by simp only [List.length_drop]; omega)]
      rw [wbAdvance_ok]
      case h => simp only [List.length_append, List.length_cons, List.length_nil,
        List.length_drop]; omega
      simp [specRespBytes, DFU_RESPONSE_OP_CODE, List.drop_drop,
        Nat.add_assoc, Nat.add_comm, Nat.add_left_comm]

/-- A flash oracle on which every operation the engine can issue succeeds. -/
def flashAllOk (fl : FlashModel) : Prop :=
  (∀ a b, fl.eraseRes a b = none) ∧ (∀ a d, fl.writeRes a d = none)

/-- Every successful `process` call wraps the handler body into a response
echoing the request with result `Success`. -/
theorem process_ok_shape (s : DfuTarget) (req : DfuRequest) (fl : FlashModel)
    (resp : DfuResponse) (s1 : DfuTarget)
    (h : DfuTarget.process s req fl = (.ok resp, s1)) :
    resp.request = req ∧ resp.result = .Success := by
  unfold DfuTarget.process at h
  rcases hb : DfuTarget.processBody s req fl with ⟨res, s2⟩
  rw [hb] at h
  cases res with
  | ok b =>
      simp only [Prod.mk.injEq, Except.ok.injEq] at h
      obtain ⟨h1, _⟩ := h
      subst h1
      exact ⟨rfl, rfl⟩
  | error e => simp at h

/-- The handler never fails on an all-success flash oracle. -/
theorem processBody_ok (s : DfuTarget) (req : DfuRequest) (fl : FlashModel)
    (hfl : flashAllOk fl) :
    ∃ b s1, DfuTarget.processBody s req fl = (.ok b, s1) := by
  obtain ⟨he, hw⟩ := hfl
  cases req <;> simp [DfuTarget.processBody, he, hw]
  case Create obj_type obj_size => cases obj_type <;> simp [he]
  case Select obj_type => cases obj_type <;> simp
  case Write d =>
      cases hobj : (getObj s.objects s.current).obj_type <;> simp [hw] <;>
        split <;> (try split) <;> exact ⟨_, _, rfl⟩

/-- Claim C10: processing a set-receipt-notification request only stores the
new interval (a u16); the receipt counter, both objects, the active index and
the metadata are unchanged, and the counter is not reset. -/
theorem set_receipt_interval_only (s : DfuTarget) (t : Nat) (fl : FlashModel) :
    DfuTarget.process s (.SetReceiptNotification t) fl =
      (.ok ⟨.SetReceiptNotification t, .Success, none⟩,
        { s with crc_receipt_interval := t % 2 ^ 16 }) := by
  simp [DfuTarget.process, DfuTarget.processBody]

/-- Claim C7: every response the engine returns carries result code
`Success`, and on a flash oracle where no operation fails `process` always
returns `Ok` — there is no request-level validation producing any other
result code, for any request including select or create with an invalid
object kind. -/
theorem process_always_success :
    (∀ (s : DfuTarget) (req : DfuRequest) (fl : FlashModel) (resp : DfuResponse)
      (s1 : DfuTarget), DfuTarget.process s req fl = (.ok resp, s1) →
        resp.result = .Success) ∧
    (∀ (s : DfuTarget) (req : DfuRequest) (fl : FlashModel), flashAllOk fl →
      ∃ resp s1, DfuTarget.process s req fl = (.ok resp, s1)) := by
  constructor
  · intro s req fl resp s1 h
    exact (process_ok_shape s req fl resp s1 h).2
  · intro s req fl hfl
    obtain ⟨b, s1, hb⟩ := processBody_ok s req fl hfl
    exact ⟨⟨req, .Success, b⟩, s1, by simp [DfuTarget.process, hb]⟩

/-- Witness for C7 at a concrete state and request. -/
theorem process_always_success_witness :
    (DfuResponse.mk .Crc .Success
      (some (.Crc 0 0))).result = .Success :=
  process_always_success.1
    (DfuTarget.new 1024 ⟨.Application, 9, 9, 9⟩ ⟨1, 2, 3, 4, 5⟩) .Crc allOkFlash
    ⟨.Crc, .Success, some (.Crc 0 0)⟩
    (DfuTarget.new 1024 ⟨.Application, 9, 9, 9⟩ ⟨1, 2, 3, 4, 5⟩) (by rfl)

/-- Claim C4: when the active object is the Data object and the flash write
fails, `process` returns the error and the whole engine state — in
particular the active object's offset and checksum — is exactly its
pre-request value. -/
theorem write_flash_failure_no_mutation (s : DfuTarget) (d : List Nat)
    (fl : FlashModel) (e : Error)
    (hobj : (getObj s.objects s.current).obj_type = .Data)
    (hw : fl.writeRes (getObj s.objects s.current).offset d = some e) :
    DfuTarget.process s (.Write d) fl = (.error e, s) := by
  simp [DfuTarget.process, DfuTarget.processBody, hobj, hw]

/-- Witness for C4: a failing flash write on a freshly created Data object
leaves the state untouched. -/
theorem write_flash_failure_no_mutation_witness :
    DfuTarget.process
      ((DfuTarget.new 64 ⟨.Application, 9, 9, 9⟩ ⟨1, 2, 3, 4, 5⟩).process
        (.Create .Data 8) allOkFlash).2
      (.Write [1])
      (writeFailFlash (.Flash (.kind 0))) =
    (.error (.Flash (.kind 0)),
      ((DfuTarget.new 64 ⟨.Application, 9, 9, 9⟩ ⟨1, 2, 3, 4, 5⟩).process
        (.Create .Data 8) allOkFlash).2) :=
  write_flash_failure_no_mutation _ [1] (writeFailFlash (.Flash (.kind 0)))
    (.Flash (.kind 0)) (by rfl) (by rfl)

/-- Claim C1 (amended): if the erase issued by a create request for the Data
object fails, `process` returns the error, the receipt counter and the
Command object are unchanged, but the Data object has already been replaced
(offset 0, fresh checksum, size set from the request) and the active index
already points at the Data slot. -/
theorem create_data_erase_failure_state (s : DfuTarget) (sz : Nat)
    (fl : FlashModel) (e : Error)
    (he : fl.eraseRes 0 (sz % 2 ^ 32) = some e) :
    DfuTarget.process s (.Create .Data sz) fl =
      (.error e,
        { s with
          objects := setObj s.objects OBJ_TYPE_DATA_IDX
            ⟨.Data, 0, Crc32.init, sz % 2 ^ 32⟩
          current := OBJ_TYPE_DATA_IDX }) := by
  have he2 : fl.eraseRes 0 (sz % 4294967296) = some e := by simpa using he
  simp [DfuTarget.process, DfuTarget.processBody, he2]

/-- Witness for the amended C1 at a concrete state. -/
theorem create_data_erase_failure_state_witness :
    DfuTarget.process (DfuTarget.new 64 ⟨.Application, 9, 9, 9⟩ ⟨1, 2, 3, 4, 5⟩)
      (.Create .Data 16) (eraseFailFlash .OutOfBounds) =
      (.error .OutOfBounds,
        { DfuTarget.new 64 ⟨.Application, 9, 9, 9⟩ ⟨1, 2, 3, 4, 5⟩ with
          objects := setObj
            (DfuTarget.new 64 ⟨.Application, 9, 9, 9⟩ ⟨1, 2, 3, 4, 5⟩).objects
            OBJ_TYPE_DATA_IDX ⟨.Data, 0, Crc32.init, 16 % 2 ^ 32⟩
          current := OBJ_TYPE_DATA_IDX }) :=
  create_data_erase_failure_state _ 16 (eraseFailFlash .OutOfBounds)
    .OutOfBounds (by rfl)

/-- Counterexample to C1 as stated: starting from a state whose Data object
has offset 1 (one byte already written), a create(Data, 32) whose erase
fails returns the error but the Data object's offset has been reset to 0 —
it is not left at its pre-request value. -/
theorem create_claim_counterexample :
    (DfuTarget.process
      ((DfuTarget.process
        ((DfuTarget.new 64 ⟨.Application, 9, 9, 9⟩ ⟨1, 2, 3, 4, 5⟩).process
          (.Create .Data 8) allOkFlash).2
        (.Write [5]) allOkFlash).2)
      (.Create .Data 32) (eraseFailFlash .OutOfBounds)).1 = .error .OutOfBounds ∧
    ((DfuTarget.process
      ((DfuTarget.new 64 ⟨.Application, 9, 9, 9⟩ ⟨1, 2, 3, 4, 5⟩).process
        (.Create .Data 8) allOkFlash).2
      (.Write [5]) allOkFlash).2).objects.2.offset = 1 ∧
    ((DfuTarget.process
      ((DfuTarget.process
        ((DfuTarget.new 64 ⟨.Application, 9, 9, 9⟩ ⟨1, 2, 3, 4, 5⟩).process
          (.Create .Data 8) allOkFlash).2
        (.Write [5]) allOkFlash).2)
      (.Create .Data 32) (eraseFailFlash .OutOfBounds)).2).objects.2.offset = 0 := by
  exact ⟨rfl, rfl, rfl⟩

/-- Claim C6: a select request never changes the engine state, and when the
Data object was the last one created (the active index points at the Data
slot), a select(Command) followed by a write applies the write to the Data
object — the Command object is untouched while the Data object's offset and
checksum advance. -/
theorem select_readonly_write_targets_created :
    (∀ (s : DfuTarget) (t : ObjectType) (fl : FlashModel),
      (DfuTarget.process s (.Select t) fl).2 = s) ∧
    (∀ (s : DfuTarget) (d : List Nat) (fl : FlashModel),
      s.current = OBJ_TYPE_DATA_IDX →
      fl.writeRes s.objects.2.offset d = none →
      ((DfuTarget.process (DfuTarget.process s (.Select .Command) fl).2
          (.Write d) fl).2.objects.1 = s.objects.1 ∧
        (DfuTarget.process (DfuTarget.process s (.Select .Command) fl).2
          (.Write d) fl).2.objects.2.offset =
            (s.objects.2.offset + d.length % 2 ^ 32) % 2 ^ 32 ∧
        (DfuTarget.process (DfuTarget.process s (.Select .Command) fl).2
          (.Write d) fl).2.objects.2.crc = s.objects.2.crc.add d)) := by
  have hsel : ∀ (s : DfuTarget) (t : ObjectType) (fl : FlashModel),
      (DfuTarget.process s (.Select t) fl).2 = s := by
    intro s t fl
    cases t <;> simp [DfuTarget.process, DfuTarget.processBody]
  refine ⟨hsel, ?_⟩
  intro s d fl hcur hw
  rw [hsel]
  have hobj : getObj s.objects s.current = s.objects.2 := by
    rw [hcur]; rfl
  have hset : ∀ v, setObj s.objects s.current v = (s.objects.1, v) := by
    intro v; rw [hcur]; rfl
  cases hot : s.objects.2.obj_type <;>
    by_cases hI : 0 < s.crc_receipt_interval <;>
    by_cases hC : (s.receipt_count + 1) % 65536 = s.crc_receipt_interval <;>
    simp [DfuTarget.process, DfuTarget.processBody, hobj, hset, hw, hot, hI, hC]

/-- Witness for C6: concrete select(Command)-then-write leaves the Command
object untouched. -/
theorem select_readonly_write_targets_created_witness :
    (DfuTarget.process
      (DfuTarget.process
        ((DfuTarget.new 64 ⟨.Application, 9, 9, 9⟩ ⟨1, 2, 3, 4, 5⟩).process
          (.Create .Data 8) allOkFlash).2
        (.Select .Command) allOkFlash).2
      (.Write [7]) allOkFlash).2.objects.1 =
    ((DfuTarget.new 64 ⟨.Application, 9, 9, 9⟩ ⟨1, 2, 3, 4, 5⟩).process
      (.Create .Data 8) allOkFlash).2.objects.1 :=
  (select_readonly_write_targets_created.2
    ((DfuTarget.new 64 ⟨.Application, 9, 9, 9⟩ ⟨1, 2, 3, 4, 5⟩).process
      (.Create .Data 8) allOkFlash).2
    [7] allOkFlash (by rfl) (by rfl)).1

/-- The state returned by `process` is the state returned by the handler. -/
theorem process_snd (s : DfuTarget) (req : DfuRequest) (fl : FlashModel) :
    (DfuTarget.process s req fl).2 = (DfuTarget.processBody s req fl).2 := by
  unfold DfuTarget.process
  rcases hb : DfuTarget.processBody s req fl with ⟨res, s1⟩
  cases res <;> rfl

/-- Indexing the first slot. -/
theorem getObj_zero (o : Object × Object) : getObj o 0 = o.1 := rfl

/-- Indexing the second slot. -/
theorem getObj_one (o : Object × Object) : getObj o 1 = o.2 := rfl

/-- Updating the first slot. -/
theorem setObj_zero (o : Object × Object) (v : Object) : setObj o 0 v = (v, o.2) := rfl

/-- Updating the second slot. -/
theorem setObj_one (o : Object × Object) (v : Object) : setObj o 1 v = (o.1, v) := rfl

/-- The §3 per-object invariant `0 ≤ offset ≤ size` (the lower bound is
inherent in `Nat`). -/
def objInv (o : Object) : Prop := o.offset ≤ o.size

/-- The object-store invariant: both slots satisfy `objInv`. -/
def stateInv (s : DfuTarget) : Prop := objInv s.objects.1 ∧ objInv s.objects.2

instance (o : Object) : Decidable (objInv o) :=
  inferInstanceAs (Decidable (o.offset ≤ o.size))

instance (s : DfuTarget) : Decidable (stateInv s) :=
  inferInstanceAs (Decidable (objInv s.objects.1 ∧ objInv s.objects.2))

/-- Claim C2 (amended): the freshly constructed engine satisfies
`0 ≤ offset ≤ size` for both objects, and every request preserves it
provided a write request's payload fits in the active object's remaining
room; the engine itself does not enforce the bound on writes, so the side
condition on write payloads is necessary. -/
theorem offset_le_size_invariant :
    (∀ (size : Nat) (fw : FirmwareInfo) (hw : HardwareInfo),
      stateInv (DfuTarget.new size fw hw)) ∧
    (∀ (s : DfuTarget) (req : DfuRequest) (fl : FlashModel),
      stateInv s →
      (∀ d, req = .Write d →
        (getObj s.objects s.current).offset + d.length ≤
          (getObj s.objects s.current).size) →
      stateInv (DfuTarget.process s req fl).2) := by
  constructor
  · intro size fw hw
    simp [DfuTarget.new, stateInv, objInv]
  · intro s req fl hs hw
    obtain ⟨hs1, hs2⟩ := hs
    simp only [objInv] at hs1 hs2
    rw [process_snd]
    cases req
    case Write d =>
      have hwd := hw d rfl
      rcases (by decide : ∀ i : Fin 2, i = 0 ∨ i = 1) s.current with hc | hc
      · have hobj : getObj s.objects s.current = s.objects.1 := by rw [hc]; rfl
        have hset : ∀ v, setObj s.objects s.current v = (v, s.objects.2) := by
          intro v; rw [hc]; rfl
        rw [hobj] at hwd
        cases hot : s.objects.1.obj_type <;>
          cases hwres : fl.writeRes s.objects.1.offset d <;>
          by_cases hI : 0 < s.crc_receipt_interval <;>
          by_cases hC : (s.receipt_count + 1) % 65536 = s.crc_receipt_interval <;>
          simp [DfuTarget.processBody, hobj, hset, hot, hwres, hI, hC,
            stateInv, objInv] <;> omega
      · have hobj : getObj s.objects s.current = s.objects.2 := by rw [hc]; rfl
        have hset : ∀ v, setObj s.objects s.current v = (s.objects.1, v) := by
          intro v; rw [hc]; rfl
        rw [hobj] at hwd
        cases hot : s.objects.2.obj_type <;>
          cases hwres : fl.writeRes s.objects.2.offset d <;>
          by_cases hI : 0 < s.crc_receipt_interval <;>
          by_cases hC : (s.receipt_count + 1) % 65536 = s.crc_receipt_interval <;>
          simp [DfuTarget.processBody, hobj, hset, hot, hwres, hI, hC,
            stateInv, objInv] <;> omega
    case Create t sz =>
      cases t <;> cases herase : fl.eraseRes 0 (sz % 4294967296) <;>
        simp [DfuTarget.processBody, herase, stateInv, objInv, setObj_zero,
          setObj_one, OBJ_TYPE_COMMAND_IDX, OBJ_TYPE_DATA_IDX] <;> omega
    case Select t =>
      cases t <;> simp [DfuTarget.processBody, stateInv, objInv] <;> omega
    all_goals
      simp [DfuTarget.processBody, stateInv, objInv] <;> omega

/-- Witness for the amended C2: a 1-byte write that fits preserves the
invariant. -/
theorem offset_le_size_invariant_witness :
    stateInv ((DfuTarget.new 64 ⟨.Application, 9, 9, 9⟩ ⟨1, 2, 3, 4, 5⟩).process
      (.Write [1]) allOkFlash).2 :=
  offset_le_size_invariant.2 _ _ allOkFlash (by decide)
    (fun _ hd => by cases hd; decide)

/-- Counterexample to C2 as stated: the reachable state obtained by
`create(Command, 1)` then a 2-byte write has the Command object at offset 2
with declared size 1, violating `offset ≤ size` — the engine does not
enforce the bound on writes. -/
theorem offset_claim_counterexample :
    ¬ stateInv
      (DfuTarget.process
        ((DfuTarget.new 1024 ⟨.Application, 9, 9, 9⟩ ⟨1, 2, 3, 4, 5⟩).process
          (.Create .Command 1) allOkFlash).2
        (.Write [1, 2]) allOkFlash).2 := by
  decide

/-- Every response body fits in 20 bytes (the `hw-version` body is largest). -/
theorem specBodyBytes_le (b : DfuResponseBody) : (specBodyBytes b).length ≤ 20 := by
  cases b <;> simp [specBodyBytes, u32le, u16le]

/-- Claim C3 (amended): every response the engine can produce encodes
successfully into any buffer of at least 23 bytes (21 bytes is not enough;
see the counterexample). -/
theorem engine_response_encodes_into_23 (s : DfuTarget) (req : DfuRequest)
    (fl : FlashModel) (resp : DfuResponse) (s1 : DfuTarget) (buf : List Nat)
    (h : DfuTarget.process s req fl = (.ok resp, s1)) (hlen : 23 ≤ buf.length) :
    (DfuResponse.encode resp buf).isOk = true := by
  obtain ⟨-, hres⟩ := process_ok_shape s req fl resp s1 h
  have hb : (specRespBytes resp).length ≤ 23 := by
    obtain ⟨rq, rs, bd⟩ := resp
    have hres2 : rs = .Success := hres
    subst hres2
    cases bd with
    | none => simp [specRespBytes, specResultBytes]
    | some b =>
        have hbody := specBodyBytes_le b
        simp [specRespBytes, specResultBytes]
        omega
  rw [respEncode_bytes resp buf (le_trans hb hlen)]
  rfl

/-- Witness for the amended C3: the largest response encodes into 23 bytes. -/
theorem engine_response_encodes_into_23_witness :
    (DfuResponse.encode ⟨.HwVersion, .Success, some (.HwVersion 1 2 3 4 5)⟩
      (List.replicate 23 0)).isOk = true :=
  engine_response_encodes_into_23
    (DfuTarget.new 64 ⟨.Application, 9, 9, 9⟩ ⟨1, 2, 3, 4, 5⟩) .HwVersion allOkFlash
    ⟨.HwVersion, .Success, some (.HwVersion 1 2 3 4 5)⟩
    (DfuTarget.new 64 ⟨.Application, 9, 9, 9⟩ ⟨1, 2, 3, 4, 5⟩)
    (List.replicate 23 0) (by rfl) (by decide)

/-- Counterexample to C3 as stated: the hw-version response, which the engine
produces, fails to encode into a 21-byte buffer — its wire size is 23 bytes
(3 header/result bytes plus a 20-byte body). -/
theorem hwversion_response_21_too_small :
    (DfuTarget.process (DfuTarget.new 64 ⟨.Application, 9, 9, 9⟩ ⟨1, 2, 3, 4, 5⟩)
      .HwVersion allOkFlash).1 =
      .ok ⟨.HwVersion, .Success, some (.HwVersion 1 2 3 4 5)⟩ ∧
    DfuResponse.encode ⟨.HwVersion, .Success, some (.HwVersion 1 2 3 4 5)⟩
      (List.replicate 21 0) = .error () :=
  ⟨rfl, rfl⟩

/-- Claim C9: the encoded response is the fixed response opcode, the
originating request's opcode, the one-byte result code with one extra
sub-code byte exactly for `ExtError`, then the body bytes; the select body
is max-size, offset, checksum (little-endian u32s), unlike the crc body's
offset-then-checksum. -/
theorem response_wire_layout :
    (∀ (resp : DfuResponse) (buf : List Nat),
      (specRespBytes resp).length ≤ buf.length →
      DfuResponse.encode resp buf =
        .ok (specRespBytes resp ++ buf.drop (specRespBytes resp).length,
          (specRespBytes resp).length)) ∧
    (∀ resp : DfuResponse, specRespBytes resp =
      DFU_RESPONSE_OP_CODE % 256 :: resp.request.code % 256 ::
        (specResultBytes resp.result ++
          (match resp.body with | some b => specBodyBytes b | none => []))) ∧
    (∀ r : DfuResult, (∃ c, r = .ExtError c) ↔ (specResultBytes r).length = 2) ∧
    (∀ offset crc max_size,
      specBodyBytes (.Select offset crc max_size) =
        u32le max_size ++ u32le offset ++ u32le crc) ∧
    (∀ offset crc, specBodyBytes (.Crc offset crc) = u32le offset ++ u32le crc) := by
  refine ⟨respEncode_bytes, fun resp => rfl, ?_, fun o c m => rfl, fun o c => rfl⟩
  intro r
  cases r <;> simp [specResultBytes]

/-- Witness for C9 at a concrete select response and buffer. -/
theorem response_wire_layout_witness :
    DfuResponse.encode ⟨.Select .Command, .Success, some (.Select 7 9 512)⟩
      (List.replicate 21 0) =
      .ok (specRespBytes ⟨.Select .Command, .Success, some (.Select 7 9 512)⟩ ++
        (List.replicate 21 0).drop
          (specRespBytes ⟨.Select .Command, .Success, some (.Select 7 9 512)⟩).length,
        (specRespBytes ⟨.Select .Command, .Success, some (.Select 7 9 512)⟩).length) :=
  response_wire_layout.1 ⟨.Select .Command, .Success, some (.Select 7 9 512)⟩
    (List.replicate 21 0) (by decide)

/-- The §4.2 decode success condition, spelled per opcode: the opcode must be
known, every operation-specific field must lie within the buffer, and an
object-type field byte must be 0, 1 or 2. -/
def decodeAccepts (bs : List Nat) : Bool :=
  match bs with
  | [] => false
  | op :: rest =>
    if op = 0x00 then true
    else if op = 0x01 then
      match rest with
      | t :: r2 =>
          (match t with
           | 0 | 1 | 2 => true
           | _ => false) && decide (4 ≤ r2.length)
      | [] => false
    else if op = 0x02 then decide (2 ≤ rest.length)
    else if op = 0x03 then true
    else if op = 0x04 then true
    else if op = 0x06 then
      match rest with
      | t :: _ =>
          match t with
          | 0 | 1 | 2 => true
          | _ => false
      | [] => false
    else if op = 0x07 then true
    else if op = 0x08 then true
    else if op = 0x09 then decide (1 ≤ rest.length)
    else if op = 0x0A then true
    else if op = 0x0B then decide (1 ≤ rest.length)
    else if op = 0x0C then true
    else false

/-- The operation codes `DfuRequest::decode` recognises. -/
def knownOpcode (op : Nat) : Bool :=
  op = 0x00 || op = 0x01 || op = 0x02 || op = 0x03 || op = 0x04 || op = 0x06 ||
    op = 0x07 || op = 0x08 || op = 0x09 || op = 0x0A || op = 0x0B || op = 0x0C

/-- The number of bytes `DfuRequest::decode` consumes for each request form:
the opcode byte plus the operation-specific fields (a write consumes the
whole buffer: the opcode plus its payload). -/
def requestWireSize (req : DfuRequest) : Nat :=
  match req with
  | .ProtocolVersion => 1
  | .Create _ _ => 6
  | .SetReceiptNotification _ => 3
  | .Crc => 1
  | .Execute => 1
  | .Select _ => 2
  | .MtuGet => 1
  | .Write d => d.length + 1
  | .Ping _ => 2
  | .HwVersion => 1
  | .FwVersion _ => 2
  | .Abort => 1

/-- A remainder equal to `bs.drop n` splits the input into the consumed
prefix followed by the trailing bytes. -/
theorem drop_split (bs rest : List Nat) (n : Nat) (h : rest = bs.drop n) :
    rest = bs.drop n ∧ bs.take n ++ rest = bs :=
  ⟨h, by rw [h]; exact List.take_append_drop n bs⟩

/-- Claim C8 (amended): decode succeeds exactly when the opcode is known,
every operation-specific field read stays inside the buffer, and any
object-type field byte is 0, 1 or 2 (an invalid object-type byte is a third
failure mode); on success the returned remainder is exactly the unconsumed
trailing bytes — the input is the consumed request encoding (whose length is
the request's wire size) followed by the remainder — and a write request
(opcode 0x08) takes all remaining bytes as payload and leaves no trailing
bytes. -/
theorem decode_characterization :
    (∀ bs : List Nat,
      ((DfuRequest.decode bs).isOk = true ↔ decodeAccepts bs = true)) ∧
    (∀ (bs : List Nat) (req : DfuRequest) (rest : List Nat),
      DfuRequest.decode bs = .ok (req, rest) →
      rest = bs.drop (requestWireSize req) ∧
      bs.take (requestWireSize req) ++ rest = bs) ∧
    (∀ rest : List Nat,
      DfuRequest.decode (0x08 :: rest) = .ok (.Write rest, [])) := by
  refine ⟨?_, ?_, ?_⟩
  · intro bs
    rcases bs with _ | ⟨op, r0⟩
    · simp [Except.isOk, Except.toBool, DfuRequest.decode, decodeU8, decodeAccepts]
    by_cases h0 : op = 0x00
    · simp [Except.isOk, Except.toBool, DfuRequest.decode, decodeU8, decodeAccepts, h0]
    by_cases h1 : op = 0x01
    · rcases r0 with _ | ⟨t, r2⟩
      · simp [Except.isOk, Except.toBool, DfuRequest.decode, decodeU8, decodeAccepts, h0, h1]
      · rcases t with _ | _ | _ | t4 <;>
          rcases r2 with _ | ⟨b0, _ | ⟨b1, _ | ⟨b2, _ | ⟨b3, r⟩⟩⟩⟩ <;>
          simp [Except.isOk, Except.toBool, DfuRequest.decode, decodeU8, decodeU32, ObjectType.tryFrom,
            decodeAccepts, h0, h1]
    by_cases h2 : op = 0x02
    · rcases r0 with _ | ⟨a, _ | ⟨b, r⟩⟩ <;>
        simp [Except.isOk, Except.toBool, DfuRequest.decode, decodeU8, decodeU16, decodeAccepts,
          h0, h1, h2]
    by_cases h3 : op = 0x03
    · simp [Except.isOk, Except.toBool, DfuRequest.decode, decodeU8, decodeAccepts, h0, h1, h2, h3]
    by_cases h4 : op = 0x04
    · simp [Except.isOk, Except.toBool, DfuRequest.decode, decodeU8, decodeAccepts, h0, h1, h2, h3, h4]
    by_cases h6 : op = 0x06
    · rcases r0 with _ | ⟨t, r⟩
      · simp [Except.isOk, Except.toBool, DfuRequest.decode, decodeU8, decodeAccepts, h0, h1, h2, h3, h4, h6]
      · rcases t with _ | _ | _ | t4 <;>
          simp [Except.isOk, Except.toBool, DfuRequest.decode, decodeU8, ObjectType.tryFrom, decodeAccepts,
            h0, h1, h2, h3, h4, h6]
    by_cases h7 : op = 0x07
    · simp [Except.isOk, Except.toBool, DfuRequest.decode, decodeU8, decodeAccepts, h0, h1, h2, h3, h4, h6, h7]
    by_cases h8 : op = 0x08
    · simp [Except.isOk, Except.toBool, DfuRequest.decode, decodeU8, decodeAccepts, h0, h1, h2, h3, h4, h6,
        h7, h8]
    by_cases h9 : op = 0x09
    · rcases r0 with _ | ⟨a, r⟩ <;>
        simp [Except.isOk, Except.toBool, DfuRequest.decode, decodeU8, decodeAccepts, h0, h1, h2, h3, h4, h6,
          h7, h8, h9]
    by_cases hA : op = 0x0A
    · simp [Except.isOk, Except.toBool, DfuRequest.decode, decodeU8, decodeAccepts, h0, h1, h2, h3, h4, h6,
        h7, h8, h9, hA]
    by_cases hB : op = 0x0B
    · rcases r0 with _ | ⟨a, r⟩ <;>
        simp [Except.isOk, Except.toBool, DfuRequest.decode, decodeU8, decodeAccepts, h0, h1, h2, h3, h4, h6,
          h7, h8, h9, hA, hB]
    by_cases hC : op = 0x0C
    · simp [Except.isOk, Except.toBool, DfuRequest.decode, decodeU8, decodeAccepts, h0, h1, h2, h3, h4, h6,
        h7, h8, h9, hA, hB, hC]
    simp [Except.isOk, Except.toBool, DfuRequest.decode, decodeU8, decodeAccepts, h0, h1, h2, h3, h4, h6,
      h7, h8, h9, hA, hB, hC]
  · intro bs req rest h
    rcases bs with _ | ⟨op, r0⟩
    · simp [Except.isOk, Except.toBool, DfuRequest.decode, decodeU8] at h
    by_cases h0 : op = 0x00
    · simp [Except.isOk, Except.toBool, DfuRequest.decode, decodeU8, h0] at h
      obtain ⟨hq, h2⟩ := h
      subst hq
      subst h2
      exact drop_split _ _ _ rfl
    by_cases h1 : op = 0x01
    · rcases r0 with _ | ⟨t, r2⟩
      · simp [Except.isOk, Except.toBool, DfuRequest.decode, decodeU8, h0, h1] at h
      · rcases t with _ | _ | _ | t4 <;>
          rcases r2 with _ | ⟨b0, _ | ⟨b1, _ | ⟨b2, _ | ⟨b3, r⟩⟩⟩⟩ <;>
          simp [Except.isOk, Except.toBool, DfuRequest.decode, decodeU8, decodeU32, ObjectType.tryFrom,
            h0, h1] at h <;>
          (obtain ⟨hq, h2⟩ := h; subst hq; subst h2; exact drop_split _ _ _ rfl)
    by_cases h2 : op = 0x02
    · rcases r0 with _ | ⟨a, _ | ⟨b, r⟩⟩ <;>
        simp [Except.isOk, Except.toBool, DfuRequest.decode, decodeU8, decodeU16, h0, h1, h2] at h <;>
        (obtain ⟨hq, h3⟩ := h; subst hq; subst h3; exact drop_split _ _ _ rfl)
    by_cases h3 : op = 0x03
    · simp [Except.isOk, Except.toBool, DfuRequest.decode, decodeU8, h0, h1, h2, h3] at h
      obtain ⟨hq, h4⟩ := h
      subst hq
      subst h4
      exact drop_split _ _ _ rfl
    by_cases h4 : op = 0x04
    · simp [Except.isOk, Except.toBool, DfuRequest.decode, decodeU8, h0, h1, h2, h3, h4] at h
      obtain ⟨hq, h5⟩ := h
      subst hq
      subst h5
      exact drop_split _ _ _ rfl
    by_cases h6 : op = 0x06
    · rcases r0 with _ | ⟨t, r⟩
      · simp [Except.isOk, Except.toBool, DfuRequest.decode, decodeU8, h0, h1, h2, h3, h4, h6] at h
      · rcases t with _ | _ | _ | t4 <;>
          simp [Except.isOk, Except.toBool, DfuRequest.decode, decodeU8, ObjectType.tryFrom,
            h0, h1, h2, h3, h4, h6] at h <;>
          (obtain ⟨hq, h7⟩ := h; subst hq; subst h7; exact drop_split _ _ _ rfl)
    by_cases h7 : op = 0x07
    · simp [Except.isOk, Except.toBool, DfuRequest.decode, decodeU8, h0, h1, h2, h3, h4, h6, h7] at h
      obtain ⟨hq, h8⟩ := h
      subst hq
      subst h8
      exact drop_split _ _ _ rfl
    by_cases h8 : op = 0x08
    · simp [Except.isOk, Except.toBool, DfuRequest.decode, decodeU8, h0, h1, h2, h3, h4, h6, h7, h8] at h
      obtain ⟨hq, h9⟩ := h
      subst hq
      subst h9
      exact drop_split _ _ _
        (by simp [requestWireSize, List.drop_succ_cons, List.drop_length])
    by_cases h9 : op = 0x09
    · rcases r0 with _ | ⟨a, r⟩ <;>
        simp [Except.isOk, Except.toBool, DfuRequest.decode, decodeU8, h0, h1, h2, h3, h4, h6, h7, h8, h9]
          at h <;>
        (obtain ⟨hq, hA⟩ := h; subst hq; subst hA; exact drop_split _ _ _ rfl)
    by_cases hA : op = 0x0A
    · simp [Except.isOk, Except.toBool, DfuRequest.decode, decodeU8, h0, h1, h2, h3, h4, h6, h7, h8, h9, hA]
        at h
      obtain ⟨hq, hB⟩ := h
      subst hq
      subst hB
      exact drop_split _ _ _ rfl
    by_cases hB : op = 0x0B
    · rcases r0 with _ | ⟨a, r⟩ <;>
        simp [Except.isOk, Except.toBool, DfuRequest.decode, decodeU8, h0, h1, h2, h3, h4, h6, h7, h8, h9,
          hA, hB] at h <;>
        (obtain ⟨hq, hD⟩ := h; subst hq; subst hD; exact drop_split _ _ _ rfl)
    by_cases hC : op = 0x0C
    · simp [Except.isOk, Except.toBool, DfuRequest.decode, decodeU8, h0, h1, h2, h3, h4, h6, h7, h8, h9,
        hA, hB, hC] at h
      obtain ⟨hq, hD⟩ := h
      subst hq
      subst hD
      exact drop_split _ _ _ rfl
    simp [Except.isOk, Except.toBool, DfuRequest.decode, decodeU8, h0, h1, h2, h3, h4, h6, h7, h8, h9,
      hA, hB, hC] at h
  · intro rest
    rfl

/-- Witness for C8 at a concrete ping request: the remainder is exactly the
byte after the consumed opcode and id. -/
theorem decode_characterization_witness :
    ([9] : List Nat) = ([0x09, 5, 9] : List Nat).drop (requestWireSize (.Ping 5)) ∧
    ([0x09, 5, 9] : List Nat).take (requestWireSize (.Ping 5)) ++ [9] =
      [0x09, 5, 9] :=
  decode_characterization.2.1 [0x09, 5, 9] (.Ping 5) [9] (by rfl)

/-- Counterexample to C8 as stated: on `[0x01, 0x03, 0, 0, 0, 0]` the opcode
is known and the create layout (opcode, type byte, u32 size = 6 bytes) lies
entirely inside the 6-byte buffer, yet decode fails, because the object-type
byte 3 is not a valid `ObjectType`. -/
theorem decode_claim_counterexample :
    DfuRequest.decode [1, 3, 0, 0, 0, 0] = .error () ∧
    knownOpcode 1 = true ∧
    ([1, 3, 0, 0, 0, 0] : List Nat).length = 6 := by
  refine ⟨rfl, rfl, rfl⟩

/-- Drive a sequence of write requests through the engine on an all-success
flash oracle, collecting for each write whether its response carried a body. -/
def runWrites (s : DfuTarget) (ps : List (List Nat)) : DfuTarget × List Bool :=
  match ps with
  | [] => (s, [])
  | p :: rest =>
    match DfuTarget.process s (.Write p) allOkFlash with
    | (.ok resp, s1) =>
        ((runWrites s1 rest).1, resp.body.isSome :: (runWrites s1 rest).2)
    | (.error _, s1) => (s1, [])

/-- Unfold one successful step of `runWrites`. -/
theorem runWrites_cons_ok (s s1 : DfuTarget) (resp : DfuResponse) (p : List Nat)
    (ps : List (List Nat))
    (h : DfuTarget.process s (.Write p) allOkFlash = (.ok resp, s1)) :
    runWrites s (p :: ps) =
      ((runWrites s1 ps).1, resp.body.isSome :: (runWrites s1 ps).2) := by
  simp only [runWrites, h]

/-- A write with receipt notifications disabled always answers with a
checksum body. -/
theorem write_step_interval0 (s : DfuTarget) (p : List Nat)
    (h : s.crc_receipt_interval = 0) :
    DfuTarget.process s (.Write p) allOkFlash =
      (.ok ⟨.Write p, .Success, some (.Crc
          (((getObj s.objects s.current).offset + p.length % 2 ^ 32) % 2 ^ 32)
          (((getObj s.objects s.current).crc.add p).finish))⟩,
        { s with
          objects := setObj s.objects s.current
            ({ getObj s.objects s.current with
               crc := (getObj s.objects s.current).crc.add p
               offset := ((getObj s.objects s.current).offset + p.length % 2 ^ 32) % 2 ^ 32 }) }) := by
  cases hot : (getObj s.objects s.current).obj_type <;>
    simp [DfuTarget.process, DfuTarget.processBody, allOkFlash, hot, h]

/-- A write whose incremented receipt counter reaches the interval emits a
checksum body and resets the counter. -/
theorem write_step_hit (s : DfuTarget) (p : List Nat)
    (hI : 0 < s.crc_receipt_interval)
    (hC : (s.receipt_count + 1) % 65536 = s.crc_receipt_interval) :
    DfuTarget.process s (.Write p) allOkFlash =
      (.ok ⟨.Write p, .Success, some (.Crc
          (((getObj s.objects s.current).offset + p.length % 2 ^ 32) % 2 ^ 32)
          (((getObj s.objects s.current).crc.add p).finish))⟩,
        { s with
          objects := setObj s.objects s.current
            ({ getObj s.objects s.current with
               crc := (getObj s.objects s.current).crc.add p
               offset := ((getObj s.objects s.current).offset + p.length % 2 ^ 32) % 2 ^ 32 })
          receipt_count := 0 }) := by
  cases hot : (getObj s.objects s.current).obj_type <;>
    simp [DfuTarget.process, DfuTarget.processBody, allOkFlash, hot, hI, hC]

/-- A write whose incremented receipt counter has not reached the interval
emits no body and stores the incremented counter. -/
theorem write_step_miss (s : DfuTarget) (p : List Nat)
    (hI : 0 < s.crc_receipt_interval)
    (hC : (s.receipt_count + 1) % 65536 ≠ s.crc_receipt_interval) :
    DfuTarget.process s (.Write p) allOkFlash =
      (.ok ⟨.Write p, .Success, none⟩,
        { s with
          objects := setObj s.objects s.current
            ({ getObj s.objects s.current with
               crc := (getObj s.objects s.current).crc.add p
               offset := ((getObj s.objects s.current).offset + p.length % 2 ^ 32) % 2 ^ 32 })
          receipt_count := (s.receipt_count + 1) % 65536 }) := by
  cases hot : (getObj s.objects s.current).obj_type <;>
    simp [DfuTarget.process, DfuTarget.processBody, allOkFlash, hot, hI, hC]

/-- With interval 0 every write response carries a body. -/
theorem runWrites_interval0 (ps : List (List Nat)) :
    ∀ s : DfuTarget, s.crc_receipt_interval = 0 →
      (runWrites s ps).2 = List.replicate ps.length true := by
  induction ps with
  | nil => intro s h; simp [runWrites]
  | cons p rest ih =>
      intro s h
      rw [runWrites_cons_ok _ _ _ _ _ (write_step_interval0 s p h)]
      simp [ih, h, List.replicate_succ]

/-- With a positive interval `N` and a counter `c < N`, the body flags of a
write sequence are determined arithmetically: write `i` (0-based) carries a
body exactly when `c + i + 1` is a multiple of `N`. -/
theorem runWrites_flags (N : Nat) (hN : 0 < N) (hN16 : N < 65536) :
    ∀ (ps : List (List Nat)) (s : DfuTarget) (c : Nat),
      s.crc_receipt_interval = N → s.receipt_count = c → c < N →
      (runWrites s ps).2 =
        (List.range ps.length).map (fun i => decide ((c + i + 1) % N = 0)) := by
  intro ps
  induction ps with
  | nil => intro s c h1 h2 h3; simp [runWrites]
  | cons p rest ih =>
      intro s c h1 h2 h3
      by_cases hc : c + 1 = N
      · have hC : (s.receipt_count + 1) % 65536 = s.crc_receipt_interval := by
          rw [h2, h1]; omega
        rw [runWrites_cons_ok _ _ _ _ _ (write_step_hit s p (by rw [h1]; omega) hC)]
        rw [ih _ 0 (by simp [h1]) (by simp) hN]
        rw [List.length_cons, List.range_succ_eq_map, List.map_cons, List.map_map]
        have hc0 : (c + 0 + 1) % N = 0 := by
          have he : c + 0 + 1 = N := by omega
          rw [he, Nat.mod_self]
        simp [hc0]
        intro a _
        have he : c + (a + 1) + 1 = N + (a + 1) := by omega
        rw [he, Nat.add_mod_left]
      · have hC : (s.receipt_count + 1) % 65536 ≠ s.crc_receipt_interval := by
          rw [h2, h1]; omega
        rw [runWrites_cons_ok _ _ _ _ _ (write_step_miss s p (by rw [h1]; omega) hC)]
        rw [ih _ (c + 1) (by simp [h1]) (by simp [h2]; omega) (by omega)]
        rw [List.length_cons, List.range_succ_eq_map, List.map_cons, List.map_map]
        have hc0 : (c + 0 + 1) % N ≠ 0 := by
          have he : c + 0 + 1 = c + 1 := by omega
          rw [he, Nat.mod_eq_of_lt (by omega)]
          omega
        simp [hc0]
        intro a _
        have he : c + 1 + a + 1 = c + (a + 1) + 1 := by omega
        rw [he]

/-- Among the first `k` writes, those whose 1-based index is a multiple of
`N` number exactly `k / N`. -/
theorem count_range_div (N : Nat) (k : Nat) :
    ((List.range k).map (fun i => decide ((i + 1) % N = 0))).count true = k / N := by
  induction k with
  | zero => simp
  | succ k ih =>
      rw [List.range_succ, List.map_append, List.count_append, ih, Nat.succ_div]
      by_cases hm : (k + 1) % N = 0
      · have hd : N ∣ k + 1 := Nat.dvd_iff_mod_eq_zero.mpr hm
        simp [hm, hd]
      · have hd : ¬ N ∣ k + 1 := fun hdd => hm (Nat.dvd_iff_mod_eq_zero.mp hdd)
        simp [hm, hd]

/-- Claim C5: from a fresh object (receipt counter 0), with interval 0 every
successful write response carries a checksum body; with interval `N > 0`,
the `i`-th write (1-based) carries a body exactly when `N` divides `i`, and
after `k` writes exactly `⌊k / N⌋` responses carried a body. -/
theorem receipt_throttling :
    (∀ (s : DfuTarget) (ps : List (List Nat)),
      s.crc_receipt_interval = 0 →
      (runWrites s ps).2 = List.replicate ps.length true) ∧
    (∀ (N : Nat) (s : DfuTarget) (ps : List (List Nat)),
      0 < N → N < 2 ^ 16 → s.crc_receipt_interval = N → s.receipt_count = 0 →
      (∀ i (hi : i < (runWrites s ps).2.length),
        (runWrites s ps).2.get ⟨i, hi⟩ = decide ((i + 1) % N = 0)) ∧
      (runWrites s ps).2.count true = ps.length / N) := by
  constructor
  · intro s ps h
    exact runWrites_interval0 ps s h
  · intro N s ps hN hN16 h1 h2
    have hflags2 : (runWrites s ps).2 =
        (List.range ps.length).map (fun i => decide ((i + 1) % N = 0)) := by
      rw [runWrites_flags N hN (by omega) ps s 0 h1 h2 hN]
      exact List.map_congr_left fun i _ => by rw [Nat.zero_add]
    constructor
    · intro i hi
      have hi2 : i < ps.length := by
        rw [hflags2] at hi
        simpa using hi
      simp [hflags2, List.get_eq_getElem, List.getElem_map, List.getElem_range]
    · rw [hflags2]
      exact count_range_div N ps.length

/-- Witness for C5: with interval 2 and three writes, exactly the second
write carries a body, giving `3 / 2 = 1` checksum responses. -/
theorem receipt_throttling_witness :
    (runWrites
      ((DfuTarget.new 64 ⟨.Application, 9, 9, 9⟩ ⟨1, 2, 3, 4, 5⟩).process
        (.SetReceiptNotification 2) allOkFlash).2
      [[1], [2], [3]]).2.count true = 3 / 2 :=
  (receipt_throttling.2 2
    ((DfuTarget.new 64 ⟨.Application, 9, 9, 9⟩ ⟨1, 2, 3, 4, 5⟩).process
      (.SetReceiptNotification 2) allOkFlash).2
    [[1], [2], [3]] (by decide) (by decide) (by rfl) (by rfl)).2
